import Mathlib

/-!
Verification of the candlestick_retriever ingestion pipeline.

Shallow embedding of `src/main.py` (the pagination drivers `all_trade_to_csv`
and `all_candle_to_csv`, the batch fetcher `get_batch`, the signing step, the
orchestrator `main`) and of the argument surface in `src/src/args.py`.
Records are abstracted to their cursor keys (field `a` for aggregate trades,
`open_time` for candles); the upstream API is an oracle from the cursor request
parameter to the returned page; loops are run on explicit fuel.
-/

/-- A page of records, abstracted to the list of their cursor keys. -/
abbrev Page := List Nat

/-- pandas `Series.max` over the cursor-key column of a page (only ever used by
the source on non-empty pages). -/
def maxKey : Page → Nat
  | [] => 0
  | h :: t => t.foldl max h

/-- The upstream API for one instrument and fixed symbol/limit: maps the cursor
request parameter (`fromId` for trades, `startTime` for candles) to the page
returned for that request. -/
abbrev UpOracle := Nat → Page

/-- Insertion of a key into an ascending key list. -/
def insertKey (x : Nat) : List Nat → List Nat
  | [] => [x]
  | h :: t => if x ≤ h then x :: h :: t else h :: insertKey x t

/-- Ascending insertion sort on cursor keys. -/
def sortKeys : List Nat → List Nat
  | [] => []
  | h :: t => insertKey h (sortKeys t)

/-- Removal of adjacent duplicate keys in a sorted key list. -/
def dedupAdj : List Nat → List Nat
  | [] => []
  | [x] => [x]
  | x :: y :: t => if x = y then dedupAdj (y :: t) else x :: dedupAdj (y :: t)

/-- Modelled from the spec: `src/preprocessing.py` is imported by `src/main.py`
as `pp` but is absent from the sources.  Section 4.4 of the spec specifies that
`pp.prepare_df` concatenates the accumulated pages and produces one ordered,
duplicate-free table sorted ascending by the cursor field. -/
def prepare_df (batches : List Page) : List Nat :=
  dedupAdj (sortKeys batches.flatten)

/-- Modelled from the spec: `pp.append_to_csv` (also from the missing
`src/preprocessing.py`) appends the merged increment to the on-disk History
Store so that the store stays a merged, duplicate-free, ascending record set. -/
def append_to_csv (df : List Nat) (disk : List Nat) : List Nat :=
  dedupAdj (sortKeys (disk ++ df))

/-- State of one `all_trade_to_csv` run (src/main.py lines 116-209).
`fromId` is the mutable `params` dict entry, `batches` is the accumulator list
including the initial placeholder element, `disk` the History Store file
contents, `requests` the log of `fromId` values passed to `get_batch`,
`appendedLog` the log of pages appended to the accumulator, and `midFlushes`
the number of in-loop flushes performed. -/
structure TradeState where
  fromId : Nat
  lastId : Int
  previousId : Int
  batches : List Page
  disk : List Nat
  requests : List Nat
  appendedLog : List Page
  midFlushes : Nat
deriving DecidableEq, Repr

/-- One iteration of the trade pagination loop (src/main.py lines 148-186).
`Sum.inr` is a loop exit (while-condition false or `break`), `Sum.inl` continues
with the next state. -/
def tradeStep (f : UpOracle) (limit : Nat) (s : TradeState) : TradeState ⊕ TradeState :=
  if s.previousId = s.lastId then Sum.inr s
  else if s.previousId ≥ s.lastId ∧ s.previousId > 0 then Sum.inr s
  else
    let s1 : TradeState :=
      { s with previousId := s.lastId, requests := s.requests ++ [s.fromId] }
    let page := f s.fromId
    if page = [] then Sum.inr s1
    else
      let m := maxKey page
      let s2 : TradeState :=
        { s1 with lastId := (m : Int), fromId := m + 1,
                  batches := s1.batches ++ [page],
                  appendedLog := s1.appendedLog ++ [page] }
      if s2.batches.length * limit ≥ 5000 then
        Sum.inl { s2 with disk := append_to_csv (prepare_df s2.batches) s2.disk,
                          batches := [], midFlushes := s2.midFlushes + 1 }
      else Sum.inl s2

/-- The trade pagination loop on fuel; the Bool is true when the loop exited by
its own conditions and false when the fuel ran out first. -/
def tradeLoop (f : UpOracle) (limit : Nat) : Nat → TradeState → TradeState × Bool
  | 0, s => (s, false)
  | fuel + 1, s =>
    match tradeStep f limit s with
    | Sum.inr s1 => (s1, true)
    | Sum.inl s1 => tradeLoop f limit fuel s1

/-- Resume logic of `all_trade_to_csv` (src/main.py lines 126-139): with
`fromId = 0` the History Store file is read and the request cursor becomes its
maximum trade id plus one; with a non-zero `fromId` the file is not read and the
request cursor becomes that value plus one; if the read raises
`FileNotFoundError` the request cursor stays at the given `fromId`.  In every
path the accumulator is reset to a single empty placeholder frame. -/
def tradeResume (diskFile : Option (List Nat)) (startFromId : Nat) : TradeState :=
  match diskFile, startFromId with
  | some d, 0 =>
      { fromId := maxKey d + 1, lastId := (maxKey d : Int), previousId := -1,
        batches := [[]], disk := d, requests := [], appendedLog := [], midFlushes := 0 }
  | none, 0 =>
      { fromId := 0, lastId := 0, previousId := -1,
        batches := [[]], disk := [], requests := [], appendedLog := [], midFlushes := 0 }
  | d, n + 1 =>
      { fromId := n + 2, lastId := (n + 1 : Nat), previousId := -1,
        batches := [[]], disk := d.getD [], requests := [], appendedLog := [], midFlushes := 0 }

/-- Observable outcome of one driver run: the returned new-line count, the
final History Store contents, the accumulator left at the end, the request and
append logs, the number of in-loop flushes, and whether the loop reached its
own exit. -/
structure RunResult where
  ret : Int
  disk : List Nat
  finalBatches : List Page
  requests : List Nat
  appendedLog : List Page
  midFlushes : Nat
  done : Bool
deriving DecidableEq, Repr

/-- Post-loop tail of `all_trade_to_csv` (src/main.py lines 189-209, with the
parquet branch disabled): if more than one element is in the accumulator,
merge it, append it to the store and return its row count minus the rows on
disk at resume time; otherwise return 0 and write nothing. -/
def tradePost (oldLines : Nat) (sb : TradeState × Bool) : RunResult :=
  if sb.1.batches.length > 1 then
    { ret := ((prepare_df sb.1.batches).length : Int) - (oldLines : Int),
      disk := append_to_csv (prepare_df sb.1.batches) sb.1.disk,
      finalBatches := sb.1.batches, requests := sb.1.requests,
      appendedLog := sb.1.appendedLog, midFlushes := sb.1.midFlushes, done := sb.2 }
  else
    { ret := 0, disk := sb.1.disk,
      finalBatches := sb.1.batches, requests := sb.1.requests,
      appendedLog := sb.1.appendedLog, midFlushes := sb.1.midFlushes, done := sb.2 }

/-- The trade driver `all_trade_to_csv` of src/main.py, run on explicit fuel.
`old_lines` is the length of the last accumulator element after resume, exactly
as computed on line 142 of the source. -/
def all_trade_to_csv (f : UpOracle) (limit : Nat) (diskFile : Option (List Nat))
    (startFromId : Nat) (fuel : Nat) : RunResult :=
  tradePost ((tradeResume diskFile startFromId).batches.getLast?.getD []).length
    (tradeLoop f limit fuel (tradeResume diskFile startFromId))

/-- Milliseconds per calendar day, for the candle date guard. -/
def msPerDay : Nat := 86400000

/-- Day index of a millisecond timestamp, modelling
`date.fromtimestamp(ts / 1000)` in the candle loop guard. -/
def dateOf (ts : Nat) : Nat := ts / msPerDay

/-- State of one `all_candle_to_csv` run (src/main.py lines 211-293).
`startTimeP` is the mutable `params` dict entry `startTime`; `previousTs` is
`None` before the first iteration. -/
structure CandleState where
  startTimeP : Nat
  lastTs : Nat
  previousTs : Option Nat
  batches : List Page
  disk : List Nat
  requests : List Nat
  appendedLog : List Page
  midFlushes : Nat
deriving DecidableEq, Repr

/-- One iteration of the candle pagination loop (src/main.py lines 234-271),
with `today` the current day index for the date guard. -/
def candleStep (f : UpOracle) (limit today : Nat) (s : CandleState) :
    CandleState ⊕ CandleState :=
  if s.previousTs = some s.lastTs then Sum.inr s
  else if dateOf s.lastTs ≥ today then Sum.inr s
  else
    let s1 : CandleState :=
      { s with previousTs := some s.lastTs, startTimeP := s.lastTs + 1,
               requests := s.requests ++ [s.lastTs + 1] }
    let page := f (s.lastTs + 1)
    if page = [] then Sum.inr s1
    else
      let m := maxKey page
      if s.lastTs = m then Sum.inr { s1 with lastTs := m }
      else
        let s2 : CandleState :=
          { s1 with lastTs := m, batches := s1.batches ++ [page],
                    appendedLog := s1.appendedLog ++ [page] }
        if s2.batches.length * limit ≥ 5000 then
          Sum.inl { s2 with disk := append_to_csv (prepare_df s2.batches) s2.disk,
                            batches := [], midFlushes := s2.midFlushes + 1 }
        else Sum.inl s2

/-- The candle pagination loop on fuel; the Bool is true when the loop exited
by its own conditions. -/
def candleLoop (f : UpOracle) (limit today : Nat) : Nat → CandleState → CandleState × Bool
  | 0, s => (s, false)
  | fuel + 1, s =>
    match candleStep f limit today s with
    | Sum.inr s1 => (s1, true)
    | Sum.inl s1 => candleLoop f limit today fuel s1

/-- Resume logic of `all_candle_to_csv` (src/main.py lines 220-227): with the
file present the accumulator starts as the single on-disk frame and the cursor
is its maximum `open_time`; with the file absent the accumulator is one empty
frame and the cursor is the caller-supplied `startTime`. -/
def candleResume (diskFile : Option (List Nat)) (startTime : Nat) : CandleState :=
  match diskFile with
  | some d =>
      { startTimeP := startTime, lastTs := maxKey d, previousTs := none,
        batches := [d], disk := d, requests := [], appendedLog := [], midFlushes := 0 }
  | none =>
      { startTimeP := startTime, lastTs := startTime, previousTs := none,
        batches := [[]], disk := [], requests := [], appendedLog := [], midFlushes := 0 }

/-- Post-loop tail of `all_candle_to_csv` (src/main.py lines 273-293, parquet
branch disabled), identical in shape to the trade tail. -/
def candlePost (oldLines : Nat) (sb : CandleState × Bool) : RunResult :=
  if sb.1.batches.length > 1 then
    { ret := ((prepare_df sb.1.batches).length : Int) - (oldLines : Int),
      disk := append_to_csv (prepare_df sb.1.batches) sb.1.disk,
      finalBatches := sb.1.batches, requests := sb.1.requests,
      appendedLog := sb.1.appendedLog, midFlushes := sb.1.midFlushes, done := sb.2 }
  else
    { ret := 0, disk := sb.1.disk,
      finalBatches := sb.1.batches, requests := sb.1.requests,
      appendedLog := sb.1.appendedLog, midFlushes := sb.1.midFlushes, done := sb.2 }

/-- The candle driver `all_candle_to_csv` of src/main.py, run on explicit fuel.
`old_lines` is the length of the last accumulator element after resume
(src/main.py line 228). -/
def all_candle_to_csv (f : UpOracle) (limit today : Nat) (diskFile : Option (List Nat))
    (startTime : Nat) (fuel : Nat) : RunResult :=
  candlePost ((candleResume diskFile startTime).batches.getLast?.getD []).length
    (candleLoop f limit today fuel (candleResume diskFile startTime))

/-- Outcome of one network attempt inside `get_batch`: an HTTP response with a
status code and decoded rows, or one of the three transient exceptions caught
on src/main.py lines 92-105. -/
inductive NetOutcome where
  | ok (status : Nat) (rows : Page)
  | connErr
  | timeoutErr
  | resetErr
deriving DecidableEq, Repr

/-- Result of `get_batch`: the returned page, the total seconds slept in
cooldowns, and the number of attempts issued. -/
structure FetchOut where
  page : Page
  sleepSeconds : Nat
  attempts : Nat
deriving DecidableEq, Repr

/-- The batch fetcher `get_batch` (src/main.py lines 74-114) over a stream of
network outcomes indexed by attempt number: a 200 response returns its decoded
rows, any other status returns an empty page immediately, and each of the three
transient exceptions sleeps `5 * 60` seconds and retries the identical request.
Fuel bounds the recursion; `none` means no attempt within fuel returned. -/
def get_batch (net : Nat → NetOutcome) : Nat → Nat → Option FetchOut
  | 0, _ => none
  | fuel + 1, i =>
    match net i with
    | NetOutcome.ok status rows =>
        if status = 200 then some ⟨rows, 0, 1⟩ else some ⟨[], 0, 1⟩
    | _ =>
        match get_batch net fuel (i + 1) with
        | some r => some ⟨r.page, r.sleepSeconds + 300, r.attempts + 1⟩
        | none => none

/-- Values stored in the request-params dict: numbers, strings, or the SHA-256
hash object `hashlib.sha256(secret.encode(utf8))` built on src/main.py line 86. -/
inductive PVal where
  | nat (n : Nat)
  | str (s : String)
  | hashObj (secret : String)
deriving DecidableEq, Repr

/-- The Python dict holding request parameters, as an association list. -/
abbrev PDict := List (String × PVal)

/-- Dict assignment `d[k] = v`, replacing an existing entry for `k`. -/
def dictSet (d : PDict) (k : String) (v : PVal) : PDict :=
  match d with
  | [] => [(k, v)]
  | (k1, v1) :: t => if k1 = k then (k, v) :: t else (k1, v1) :: dictSet t k v

/-- Dict lookup `d[k]`. -/
def dictGet (d : PDict) (k : String) : Option PVal :=
  match d with
  | [] => none
  | (k1, v1) :: t => if k1 = k then some v1 else dictGet t k

/-- The credential branch of `get_batch` (src/main.py lines 79-90): when both an
API key and secret are configured, the server time is fetched, a SHA-256 hash
object of the secret is stored into `params` under the misspelled key
`signiature`, the server time is stored under `timestamp`, and the key is sent
as the `X-MBX-APIKEY` header; otherwise `params` is untouched and no header is
set. -/
def signParams (apiKey apiSecret : Option String) (serverTime : Nat) (p : PDict) :
    PDict × Option String :=
  match apiKey, apiSecret with
  | some k, some sec =>
      (dictSet (dictSet p "signiature" (PVal.hashObj sec)) "timestamp" (PVal.nat serverTime),
       some k)
  | _, _ => (p, none)

/-- A Python runtime name-resolution failure. -/
inductive PyErr where
  | nameError (n : String)
  | unboundLocal (n : String)
deriving DecidableEq, Repr

/-- Module-level names bound in src/main.py (imports, module constants and
function definitions); neither `data_type` nor `interval` is among them. -/
def moduleGlobals : List String :=
  ["os", "subprocess", "json", "random", "time", "date", "datetime", "timedelta",
   "requests", "hashlib", "pd", "pp", "get_args", "API_BASE", "LABELS", "METADATA",
   "API_KEY", "API_SECRET", "write_metadata", "get_batch", "all_trade_to_csv",
   "all_candle_to_csv", "get_historical_candlesticks", "get_historical_agg_trades",
   "main"]

/-- Names that are local to `all_trade_to_csv` under Python scoping rules:
its parameters plus every name assigned somewhere in its body. -/
def tradeLocalNames : List String :=
  ["base", "quote", "params", "with_parquet", "args", "filepath", "api_path",
   "batches", "last_id", "old_lines", "previous_id", "new_batch", "timestamp",
   "lines", "df", "last_datetime", "covering_spaces", "parquet_name", "full_path"]

/-- Names that are local to `all_candle_to_csv` under Python scoping rules;
unlike the trade driver it has an `interval` parameter. -/
def candleLocalNames : List String :=
  ["base", "quote", "params", "interval", "with_parquet", "filepath", "api_path",
   "batches", "last_timestamp", "old_lines", "previous_timestamp", "new_batch",
   "lines", "df", "last_datetime", "covering_spaces", "parquet_name", "full_path"]

/-- Names that are local to `main` under Python scoping rules. -/
def mainLocalNames : List String :=
  ["args", "with_parquet", "upload_parquet", "interval", "data_type", "pairs",
   "all_symbols", "all_pairs", "n_count", "n", "pair", "base", "quote", "symbol",
   "new_lines", "yesterday"]

/-- Python name resolution at a reference site: a name assigned somewhere in the
function is a local (unbound reference gives `UnboundLocalError`); otherwise the
module globals are searched and a miss gives `NameError`. -/
def resolveName (localNames boundLocals globals : List String) (n : String) :
    Option PyErr :=
  if n ∈ localNames then
    if n ∈ boundLocals then none else some (PyErr.unboundLocal n)
  else if n ∈ globals then none
  else some (PyErr.nameError n)

/-- An event in straight-line Python code: a name reference or a local binding. -/
inductive ScopeEvent where
  | ref (n : String)
  | bindLocal (n : String)
deriving DecidableEq, Repr

/-- Evaluation of a straight-line event sequence: the first failing reference
raises; bindings extend the bound-local set. -/
def runScope (localNames globals : List String) :
    List String → List ScopeEvent → Option PyErr
  | _, [] => none
  | bound, ScopeEvent.ref n :: t =>
      match resolveName localNames bound globals n with
      | some e => some e
      | none => runScope localNames globals bound t
  | bound, ScopeEvent.bindLocal n :: t =>
      runScope localNames globals (n :: bound) t

/-- Name references and bindings of the parquet block shared by both drivers
(src/main.py lines 192-202 and 276-286), in Python evaluation order: the two
f-string assignments, the `pp.write_raw_to_parquet(df, full_path)` call, then
the metadata dict whose description f-string reads `data_type`, `base`,
`quote`, `interval` and `df`, then `parquet_name`, `os.stat` and `full_path`. -/
def parquetBlockEvents : List ScopeEvent :=
  [ScopeEvent.ref "base", ScopeEvent.ref "quote", ScopeEvent.bindLocal "parquet_name",
   ScopeEvent.ref "parquet_name", ScopeEvent.bindLocal "full_path",
   ScopeEvent.ref "pp", ScopeEvent.ref "df", ScopeEvent.ref "full_path",
   ScopeEvent.ref "METADATA", ScopeEvent.ref "data_type", ScopeEvent.ref "base",
   ScopeEvent.ref "quote", ScopeEvent.ref "interval", ScopeEvent.ref "df",
   ScopeEvent.ref "parquet_name", ScopeEvent.ref "os", ScopeEvent.ref "full_path"]

/-- Locals of `all_trade_to_csv` certainly bound when its parquet block starts;
`df` is bound exactly when the preceding `len(batches) > 1` branch ran. -/
def tradeBoundAtParquet (dfBound : Bool) : List String :=
  (if dfBound then ["df"] else []) ++
  ["base", "quote", "params", "with_parquet", "args", "filepath", "api_path",
   "batches", "last_id", "old_lines", "previous_id"]

/-- Locals of `all_candle_to_csv` certainly bound when its parquet block starts. -/
def candleBoundAtParquet (dfBound : Bool) : List String :=
  (if dfBound then ["df"] else []) ++
  ["base", "quote", "params", "interval", "with_parquet", "filepath", "api_path",
   "batches", "last_timestamp", "old_lines", "previous_timestamp"]

/-- Outcome of the trade parquet block as a function of whether `df` got bound. -/
def tradeParquetOutcome (dfBound : Bool) : Option PyErr :=
  runScope tradeLocalNames moduleGlobals (tradeBoundAtParquet dfBound) parquetBlockEvents

/-- Outcome of the candle parquet block as a function of whether `df` got bound. -/
def candleParquetOutcome (dfBound : Bool) : Option PyErr :=
  runScope candleLocalNames moduleGlobals (candleBoundAtParquet dfBound) parquetBlockEvents

/-- Modelled from the spec and src/src/args.py lines 6-7: the `--dtype` argument
is declared without a `choices` restriction, so any string is accepted by the
argument parser. -/
def parse_dtype (s : String) : Option String := some s

/-- Per-pair body of `main` (src/main.py lines 362-376): `new_lines` is assigned
only in the `candle` and `trade` branches, then referenced by `new_lines > 0`;
with any other dtype the reference is an unbound-local failure. -/
def mainPairStep (dtype : String) (driver : Int) : Except PyErr Bool :=
  let bound : List String :=
    (if dtype = "candle" then ["new_lines"]
     else if dtype = "trade" then ["new_lines"] else []) ++
    ["args", "with_parquet", "upload_parquet", "interval", "data_type", "pairs",
     "all_pairs", "n_count", "n", "pair", "base", "quote", "symbol"]
  match resolveName mainLocalNames bound moduleGlobals "new_lines" with
  | some e => Except.error e
  | none => Except.ok (decide (driver > 0))

/-- The orchestrator loop of `main` over the instrument list: each pair runs the
per-pair body; the first raised error aborts the whole run. -/
def mainRun (dtype : String) (driver : String × String → Int) :
    List (String × String) → Except PyErr Nat
  | [] => Except.ok 0
  | p :: t =>
      match mainPairStep dtype (driver p) with
      | Except.error e => Except.error e
      | Except.ok _ =>
          match mainRun dtype driver t with
          | Except.error e => Except.error e
          | Except.ok c => Except.ok (c + 1)

/-- Upstream used for the final-flush data-loss run: page `[10]` at request 0,
page `[20]` at request 11, otherwise exhausted. -/
def c1Oracle : UpOracle :=
  fun n => if n = 0 then [10] else if n = 11 then [20] else []

/-- Upstream used for the flush-cadence run: four consecutive pages of 1000
trades each (ids 0-3999), then exhausted. -/
def c4Oracle : UpOracle :=
  fun n => if n < 4000 then List.range' n 1000 else []

/-- A full page of 1000 consecutive trade ids starting at `k`. -/
def c4p (k : Nat) : Page := List.range' k 1000

/-- Start state of the flush-cadence run. -/
def c4s0 : TradeState := tradeResume none 0

/-- State after the first page of the flush-cadence run. -/
def c4s1 : TradeState :=
  { fromId := 1000, lastId := 999, previousId := 0, batches := [[], c4p 0],
    disk := [], requests := [0], appendedLog := [c4p 0], midFlushes := 0 }

/-- State after the second page of the flush-cadence run. -/
def c4s2 : TradeState :=
  { fromId := 2000, lastId := 1999, previousId := 999,
    batches := [[], c4p 0, c4p 1000], disk := [], requests := [0, 1000],
    appendedLog := [c4p 0, c4p 1000], midFlushes := 0 }

/-- State after the third page of the flush-cadence run. -/
def c4s3 : TradeState :=
  { fromId := 3000, lastId := 2999, previousId := 1999,
    batches := [[], c4p 0, c4p 1000, c4p 2000], disk := [],
    requests := [0, 1000, 2000],
    appendedLog := [c4p 0, c4p 1000, c4p 2000], midFlushes := 0 }

/-- State after the fourth page of the flush-cadence run: appending it makes
`len(batches) * limit = 5 * 1000 ≥ 5000`, so the in-loop flush fires and the
accumulator empties. -/
def c4s4 : TradeState :=
  { fromId := 4000, lastId := 3999, previousId := 2999, batches := [],
    disk := append_to_csv (prepare_df [[], c4p 0, c4p 1000, c4p 2000, c4p 3000]) [],
    requests := [0, 1000, 2000, 3000],
    appendedLog := [c4p 0, c4p 1000, c4p 2000, c4p 3000], midFlushes := 1 }

/-- Final state of the flush-cadence run: the fifth request returns the empty
page and the loop exits. -/
def c4s5 : TradeState :=
  { fromId := 4000, lastId := 3999, previousId := 3999, batches := [],
    disk := append_to_csv (prepare_df [[], c4p 0, c4p 1000, c4p 2000, c4p 3000]) [],
    requests := [0, 1000, 2000, 3000, 4000],
    appendedLog := [c4p 0, c4p 1000, c4p 2000, c4p 3000], midFlushes := 1 }

/-- Upstream used for the negative-count run: one-row candle pages at
timestamps 6 to 9, otherwise exhausted. -/
def c5Oracle : UpOracle :=
  fun n => if 6 ≤ n ∧ n ≤ 9 then [n] else []

/-- Upstream witnessing candle-loop non-termination: the fetch at cursor 10
(request 11) returns a page regressing to key 5, and the fetch at cursor 5
(request 6) returns a page back at key 10. -/
def cycleOracle : UpOracle :=
  fun n => if n = 11 then [5] else if n = 6 then [10] else []

/-- Candle start state for the non-termination run: no History Store file,
start timestamp 10. -/
def cycleStart : CandleState := candleResume none 10

/-- Termination of the candle pagination loop from a given state: some finite
fuel makes the loop reach its own exit. -/
def candleTerminates (f : UpOracle) (limit today : Nat) (s : CandleState) : Prop :=
  ∃ fuel, (candleLoop f limit today fuel s).2 = true

/-- Invariant of the non-terminating run: the cursor alternates between 10 and
5 and never equals the previous cursor. -/
def cycleInv (s : CandleState) : Prop :=
  (s.lastTs = 10 ∧ s.previousTs ≠ some 10) ∨ (s.lastTs = 5 ∧ s.previousTs ≠ some 5)

/-- List extension: `L` is `l` followed by some tail. -/
def listExt (l L : List Nat) : Prop := ∃ t, L = l ++ t

/-- C1 (code defect witness run): trade run with limit 2500 and upstream
`c1Oracle`.  After the in-loop flush empties the accumulator, the single page
`[20]` appended afterwards sits alone in the accumulator at exhaustion; the
final write is guarded by `len(batches) > 1`, so no final flush happens, key 20
never reaches the History Store, and the driver returns 0. -/
theorem C1_trade_drops_trailing_page :
    (all_trade_to_csv c1Oracle 2500 none 0 20).done = true
    ∧ (all_trade_to_csv c1Oracle 2500 none 0 20).midFlushes = 1
    ∧ (all_trade_to_csv c1Oracle 2500 none 0 20).appendedLog = [[10], [20]]
    ∧ (all_trade_to_csv c1Oracle 2500 none 0 20).finalBatches = [[20]]
    ∧ (all_trade_to_csv c1Oracle 2500 none 0 20).disk = [10]
    ∧ (all_trade_to_csv c1Oracle 2500 none 0 20).ret = 0 := by
  decide

/-- C2 (counterexample): candle run with no History Store file and caller
fallback start 5.  The claim says the first request then uses resume cursor 5;
the code requests `last_timestamp + 1 = 6`. -/
theorem C2_counterexample :
    ¬ (all_candle_to_csv (fun _ => []) 1000 1 none 5 10).requests.head? = some 5
    ∧ (all_candle_to_csv (fun _ => []) 1000 1 none 5 10).requests.head? = some 6 := by
  decide

/-- Left fold of `max` over an arithmetic range reaches its last element. -/
theorem foldl_max_range' (n : Nat) :
    ∀ s a : Nat, List.foldl max a (List.range' s (n + 1)) = max a (s + n) := by
  induction n with
  | zero => intro s a; simp [List.range'_one]
  | succ n ih =>
      intro s a
      rw [List.range'_succ, List.foldl_cons, ih (s + 1) (max a s), Nat.max_assoc]
      congr 1
      rw [Nat.max_eq_right (by omega)]
      omega

/-- Maximum key of a full page of 1000 consecutive ids. -/
theorem maxKey_range1000 (k : Nat) : maxKey (List.range' k 1000) = k + 999 := by
  have h : List.range' k 1000 = k :: List.range' (k + 1) 999 := by
    rw [show (1000 : Nat) = 999 + 1 from rfl, List.range'_succ]
  rw [h]
  show List.foldl max k (List.range' (k + 1) 999) = k + 999
  rw [show (999 : Nat) = 998 + 1 from rfl, foldl_max_range' 998 (k + 1) k,
      Nat.max_eq_right (by omega)]

/-- Unfolding of one continuing iteration of the trade loop. -/
theorem tradeLoop_step_inl (f : UpOracle) (limit : Nat) {s s1 : TradeState}
    (h : tradeStep f limit s = Sum.inl s1) (n : Nat) :
    tradeLoop f limit (n + 1) s = tradeLoop f limit n s1 := by
  simp [tradeLoop, h]

/-- Unfolding of one exiting iteration of the trade loop. -/
theorem tradeLoop_step_inr (f : UpOracle) (limit : Nat) {s s1 : TradeState}
    (h : tradeStep f limit s = Sum.inr s1) (n : Nat) :
    tradeLoop f limit (n + 1) s = (s1, true) := by
  simp [tradeLoop, h]

/-- First iteration of the flush-cadence run. -/
theorem c4_step1 : tradeStep c4Oracle 1000 c4s0 = Sum.inl c4s1 := by
  simp only [tradeStep, c4s0, tradeResume, c4Oracle]
  norm_num [c4s1, maxKey_range1000, c4p]

/-- Second iteration of the flush-cadence run. -/
theorem c4_step2 : tradeStep c4Oracle 1000 c4s1 = Sum.inl c4s2 := by
  simp only [tradeStep, c4s1, c4Oracle]
  norm_num [c4s2, maxKey_range1000, c4p]

/-- Third iteration of the flush-cadence run. -/
theorem c4_step3 : tradeStep c4Oracle 1000 c4s2 = Sum.inl c4s3 := by
  simp only [tradeStep, c4s2, c4Oracle]
  norm_num [c4s3, maxKey_range1000, c4p]

/-- Fourth iteration of the flush-cadence run: the in-loop flush fires after
only four appended pages because the placeholder element counts. -/
theorem c4_step4 : tradeStep c4Oracle 1000 c4s3 = Sum.inl c4s4 := by
  simp only [tradeStep, c4s3, c4Oracle]
  norm_num [c4s4, maxKey_range1000, c4p]

/-- Fifth iteration of the flush-cadence run: the empty page exits the loop. -/
theorem c4_step5 : tradeStep c4Oracle 1000 c4s4 = Sum.inr c4s5 := by
  rw [tradeStep]
  rw [if_neg (by norm_num [c4s4])]
  rw [if_neg (by norm_num [c4s4])]
  rw [if_pos (by norm_num [c4s4, c4Oracle])]
  norm_num [c4s4, c4s5]

/-- The whole flush-cadence loop run. -/
theorem c4_loop : tradeLoop c4Oracle 1000 20 c4s0 = (c4s5, true) := by
  rw [show (20 : Nat) = 19 + 1 from rfl, tradeLoop_step_inl c4Oracle 1000 c4_step1,
      show (19 : Nat) = 18 + 1 from rfl, tradeLoop_step_inl c4Oracle 1000 c4_step2,
      show (18 : Nat) = 17 + 1 from rfl, tradeLoop_step_inl c4Oracle 1000 c4_step3,
      show (17 : Nat) = 16 + 1 from rfl, tradeLoop_step_inl c4Oracle 1000 c4_step4,
      show (16 : Nat) = 15 + 1 from rfl, tradeLoop_step_inr c4Oracle 1000 c4_step5]

/-- C4 (counterexample): trade run with page limit 1000 against `c4Oracle`.
Only four pages of 1000 rows each are ever accumulated, yet exactly one in-loop
flush fires, because the trigger `len(batches) * limit >= 5000` also counts the
initial placeholder element; this refutes the claim that with limit 1000 the
mid-loop flush occurs only after five pages of 1000 rows have accumulated. -/
theorem C4_counterexample :
    (all_trade_to_csv c4Oracle 1000 none 0 20).done = true
    ∧ (all_trade_to_csv c4Oracle 1000 none 0 20).midFlushes = 1
    ∧ (all_trade_to_csv c4Oracle 1000 none 0 20).appendedLog.map List.length
        = [1000, 1000, 1000, 1000]
    ∧ (all_trade_to_csv c4Oracle 1000 none 0 20).finalBatches = [] := by
  have h : all_trade_to_csv c4Oracle 1000 none 0 20 = tradePost 0 (c4s5, true) := by
    unfold all_trade_to_csv
    rw [show tradeResume none 0 = c4s0 from rfl, c4_loop]
    norm_num [c4s0, tradeResume]
  rw [h]
  unfold tradePost
  rw [if_neg (by norm_num [c4s5])]
  refine ⟨rfl, rfl, ?_, rfl⟩
  simp only [c4s5, List.map_cons, List.map_nil, c4p, List.length_range']

/-- C5 (code defect witness run): candle run resuming from a 6-row History
Store with limit 2499 against `c5Oracle`.  A mid-loop flush empties the
accumulator, the trailing segment merges to 2 rows, and the driver returns
`2 - 6 = -4` even though the store grew from 6 to 10 rows, refuting both
non-negativity and the rows-beyond-disk equation. -/
theorem C5_negative_count :
    (all_candle_to_csv c5Oracle 2499 1 (some [0, 1, 2, 3, 4, 5]) 0 20).done = true
    ∧ (all_candle_to_csv c5Oracle 2499 1 (some [0, 1, 2, 3, 4, 5]) 0 20).ret = -4
    ∧ (all_candle_to_csv c5Oracle 2499 1 (some [0, 1, 2, 3, 4, 5]) 0 20).disk
        = [0, 1, 2, 3, 4, 5, 6, 7, 8, 9]
    ∧ (all_candle_to_csv c5Oracle 2499 1 (some [0, 1, 2, 3, 4, 5]) 0 20).midFlushes = 1 := by
  decide

/-- C8: on the parquet path both drivers fail by a name-resolution error in
every case: with `df` bound the metadata f-string reads the never-defined name
`data_type` and raises `NameError`; with `df` unbound (no new pages were
gathered) the `write_raw_to_parquet(df, ...)` call raises `UnboundLocalError`
(a `NameError` subclass).  In particular a run that gathered no pages leaves
`len(batches) = 1` so `df` is unbound.  The parquet path never completes. -/
theorem C8_parquet_never_completes :
    tradeParquetOutcome true = some (PyErr.nameError "data_type")
    ∧ tradeParquetOutcome false = some (PyErr.unboundLocal "df")
    ∧ candleParquetOutcome true = some (PyErr.nameError "data_type")
    ∧ candleParquetOutcome false = some (PyErr.unboundLocal "df")
    ∧ tradeParquetOutcome
        (decide (1 < (all_trade_to_csv (fun _ => []) 1000 none 0 5).finalBatches.length))
        = some (PyErr.unboundLocal "df")
    ∧ resolveName tradeLocalNames (tradeBoundAtParquet true) moduleGlobals "interval"
        = some (PyErr.nameError "interval")
    ∧ resolveName candleLocalNames (candleBoundAtParquet true) moduleGlobals "interval"
        = none := by
  decide

/-- Extension is reflexive. -/
theorem listExt_refl (l : List Nat) : listExt l l := ⟨[], (List.append_nil l).symm⟩

/-- Extension is transitive. -/
theorem listExt_trans {a b c : List Nat} (h1 : listExt a b) (h2 : listExt b c) :
    listExt a c := by
  obtain ⟨t1, rfl⟩ := h1
  obtain ⟨t2, rfl⟩ := h2
  exact ⟨t1 ++ t2, List.append_assoc a t1 t2⟩

/-- The head of every extension of a singleton is that element. -/
theorem head_of_listExt (a : Nat) (L : List Nat) (h : listExt [a] L) :
    L.head? = some a := by
  obtain ⟨t, rfl⟩ := h
  rfl

/-- One trade iteration only ever appends to the request log. -/
theorem tradeStep_requests (f : UpOracle) (limit : Nat) (s : TradeState) :
    listExt s.requests (Sum.elim id id (tradeStep f limit s)).requests := by
  simp only [tradeStep]
  repeat' split
  all_goals first
    | exact listExt_refl _
    | exact ⟨[s.fromId], rfl⟩

/-- The whole trade loop only ever appends to the request log. -/
theorem tradeLoop_requests (f : UpOracle) (limit : Nat) :
    ∀ (fuel : Nat) (s : TradeState),
      listExt s.requests (tradeLoop f limit fuel s).1.requests := by
  intro fuel
  induction fuel with
  | zero => intro s; exact listExt_refl _
  | succ n ih =>
      intro s
      have h := tradeStep_requests f limit s
      cases hstep : tradeStep f limit s with
      | inl s1 =>
          rw [hstep] at h
          rw [tradeLoop_step_inl f limit hstep n]
          exact listExt_trans h (ih s1)
      | inr s1 =>
          rw [hstep] at h
          rw [tradeLoop_step_inr f limit hstep n]
          exact h

/-- A trade iteration that passes the two loop guards logs exactly the request
for the current `fromId`. -/
theorem tradeStep_logs (f : UpOracle) (limit : Nat) (s : TradeState)
    (h1 : ¬s.previousId = s.lastId)
    (h2 : ¬(s.previousId ≥ s.lastId ∧ s.previousId > 0)) :
    (Sum.elim id id (tradeStep f limit s)).requests = s.requests ++ [s.fromId] := by
  simp only [tradeStep, if_neg h1, if_neg h2]
  split
  · rfl
  · split
    · rfl
    · rfl

/-- First request of a trade loop run from a state passing the guards. -/
theorem trade_first_request (f : UpOracle) (limit fuel : Nat) (s : TradeState)
    (h1 : ¬s.previousId = s.lastId)
    (h2 : ¬(s.previousId ≥ s.lastId ∧ s.previousId > 0))
    (hreq : s.requests = []) (hfuel : 1 ≤ fuel) :
    (tradeLoop f limit fuel s).1.requests.head? = some s.fromId := by
  obtain ⟨n, rfl⟩ : ∃ n, fuel = n + 1 := ⟨fuel - 1, by omega⟩
  have hlog := tradeStep_logs f limit s h1 h2
  rw [hreq] at hlog
  cases hstep : tradeStep f limit s with
  | inl s1 =>
      rw [hstep] at hlog
      rw [tradeLoop_step_inl f limit hstep n]
      refine head_of_listExt _ _ ?_
      have hm := tradeLoop_requests f limit n s1
      rw [show (s1.requests : List Nat) = [s.fromId] from hlog] at hm
      exact hm
  | inr s1 =>
      rw [hstep] at hlog
      rw [tradeLoop_step_inr f limit hstep n]
      show s1.requests.head? = some s.fromId
      rw [show (s1.requests : List Nat) = [s.fromId] from hlog]
      rfl

/-- The trade post-loop tail leaves the request log unchanged. -/
theorem tradePost_requests (o : Nat) (sb : TradeState × Bool) :
    (tradePost o sb).requests = sb.1.requests := by
  unfold tradePost
  split <;> rfl

/-- The trade driver reports the request log of its loop. -/
theorem all_trade_requests (f : UpOracle) (limit : Nat) (diskFile : Option (List Nat))
    (startFromId fuel : Nat) :
    (all_trade_to_csv f limit diskFile startFromId fuel).requests
      = (tradeLoop f limit fuel (tradeResume diskFile startFromId)).1.requests := by
  unfold all_trade_to_csv
  rw [tradePost_requests]

/-- Unfolding of one continuing iteration of the candle loop. -/
theorem candleLoop_step_inl (f : UpOracle) (limit today : Nat) {s s1 : CandleState}
    (h : candleStep f limit today s = Sum.inl s1) (n : Nat) :
    candleLoop f limit today (n + 1) s = candleLoop f limit today n s1 := by
  simp [candleLoop, h]

/-- Unfolding of one exiting iteration of the candle loop. -/
theorem candleLoop_step_inr (f : UpOracle) (limit today : Nat) {s s1 : CandleState}
    (h : candleStep f limit today s = Sum.inr s1) (n : Nat) :
    candleLoop f limit today (n + 1) s = (s1, true) := by
  simp [candleLoop, h]

/-- One candle iteration only ever appends to the request log. -/
theorem candleStep_requests (f : UpOracle) (limit today : Nat) (s : CandleState) :
    listExt s.requests (Sum.elim id id (candleStep f limit today s)).requests := by
  simp only [candleStep]
  repeat' split
  all_goals first
    | exact listExt_refl _
    | exact ⟨[s.lastTs + 1], rfl⟩

/-- The whole candle loop only ever appends to the request log. -/
theorem candleLoop_requests (f : UpOracle) (limit today : Nat) :
    ∀ (fuel : Nat) (s : CandleState),
      listExt s.requests (candleLoop f limit today fuel s).1.requests := by
  intro fuel
  induction fuel with
  | zero => intro s; exact listExt_refl _
  | succ n ih =>
      intro s
      have h := candleStep_requests f limit today s
      cases hstep : candleStep f limit today s with
      | inl s1 =>
          rw [hstep] at h
          rw [candleLoop_step_inl f limit today hstep n]
          exact listExt_trans h (ih s1)
      | inr s1 =>
          rw [hstep] at h
          rw [candleLoop_step_inr f limit today hstep n]
          exact h

/-- A candle iteration that passes the two loop guards logs exactly the request
for `last_timestamp + 1`. -/
theorem candleStep_logs (f : UpOracle) (limit today : Nat) (s : CandleState)
    (h1 : ¬s.previousTs = some s.lastTs)
    (h2 : ¬dateOf s.lastTs ≥ today) :
    (Sum.elim id id (candleStep f limit today s)).requests
      = s.requests ++ [s.lastTs + 1] := by
  simp only [candleStep, if_neg h1, if_neg h2]
  split
  · rfl
  · split
    · rfl
    · split
      · rfl
      · rfl

/-- First request of a candle loop run from a state passing the guards. -/
theorem candle_first_request (f : UpOracle) (limit today fuel : Nat) (s : CandleState)
    (h1 : ¬s.previousTs = some s.lastTs)
    (h2 : ¬dateOf s.lastTs ≥ today)
    (hreq : s.requests = []) (hfuel : 1 ≤ fuel) :
    (candleLoop f limit today fuel s).1.requests.head? = some (s.lastTs + 1) := by
  obtain ⟨n, rfl⟩ : ∃ n, fuel = n + 1 := ⟨fuel - 1, by omega⟩
  have hlog := candleStep_logs f limit today s h1 h2
  rw [hreq] at hlog
  cases hstep : candleStep f limit today s with
  | inl s1 =>
      rw [hstep] at hlog
      rw [candleLoop_step_inl f limit today hstep n]
      refine head_of_listExt _ _ ?_
      have hm := candleLoop_requests f limit today n s1
      rw [show (s1.requests : List Nat) = [s.lastTs + 1] from hlog] at hm
      exact hm
  | inr s1 =>
      rw [hstep] at hlog
      rw [candleLoop_step_inr f limit today hstep n]
      show s1.requests.head? = some (s.lastTs + 1)
      rw [show (s1.requests : List Nat) = [s.lastTs + 1] from hlog]
      rfl

/-- The candle post-loop tail leaves the request log unchanged. -/
theorem candlePost_requests (o : Nat) (sb : CandleState × Bool) :
    (candlePost o sb).requests = sb.1.requests := by
  unfold candlePost
  split <;> rfl

/-- The candle driver reports the request log of its loop. -/
theorem all_candle_requests (f : UpOracle) (limit today : Nat)
    (diskFile : Option (List Nat)) (startTime fuel : Nat) :
    (all_candle_to_csv f limit today diskFile startTime fuel).requests
      = (candleLoop f limit today fuel (candleResume diskFile startTime)).1.requests := by
  unfold all_candle_to_csv
  rw [candlePost_requests]

/-- C2 (amended): the resume cursor of the first request is, for trades with
fallback 0: `max id + 1` when the History Store file exists and 0 when it is
absent; for trades with a non-zero fallback `s`: always `s + 1`, whether or
not the file exists (the file is not even read); for candles: `max open_time
+ 1` when the file exists and `fallback + 1` (not the fallback itself) when it
is absent. -/
theorem C2_amended (f g : UpOracle) (limit today fuel : Nat) (d : List Nat) (s : Nat)
    (hfuel : 1 ≤ fuel) (hs : s ≠ 0) (_hd : d ≠ [])
    (ht1 : dateOf (maxKey d) < today) (ht2 : dateOf s < today) :
    (all_trade_to_csv f limit (some d) 0 fuel).requests.head? = some (maxKey d + 1)
    ∧ (all_trade_to_csv f limit none 0 fuel).requests.head? = some 0
    ∧ (all_trade_to_csv f limit (some d) s fuel).requests.head? = some (s + 1)
    ∧ (all_trade_to_csv f limit none s fuel).requests.head? = some (s + 1)
    ∧ (all_candle_to_csv g limit today (some d) s fuel).requests.head?
        = some (maxKey d + 1)
    ∧ (all_candle_to_csv g limit today none s fuel).requests.head? = some (s + 1) := by
  obtain ⟨n, rfl⟩ : ∃ n, s = n + 1 := ⟨s - 1, by omega⟩
  have hnn : (0 : Int) ≤ (maxKey d : Int) := Int.natCast_nonneg _
  refine ⟨?_, ?_, ?_, ?_, ?_, ?_⟩
  · rw [all_trade_requests]
    rw [trade_first_request f limit fuel _ (by simp [tradeResume])
      (by simp [tradeResume]) (by simp [tradeResume]) hfuel]
    simp [tradeResume]
  · rw [all_trade_requests]
    rw [trade_first_request f limit fuel _ (by simp [tradeResume])
      (by simp [tradeResume]) (by simp [tradeResume]) hfuel]
    simp [tradeResume]
  · rw [all_trade_requests]
    rw [trade_first_request f limit fuel _ (by simp [tradeResume]; omega)
      (by simp [tradeResume]) (by simp [tradeResume]) hfuel]
    simp [tradeResume]
  · rw [all_trade_requests]
    rw [trade_first_request f limit fuel _ (by simp [tradeResume]; omega)
      (by simp [tradeResume]) (by simp [tradeResume]) hfuel]
    simp [tradeResume]
  · rw [all_candle_requests]
    rw [candle_first_request g limit today fuel _ (by simp [candleResume])
      (by simp [candleResume]; omega) (by simp [candleResume]) hfuel]
    simp [candleResume]
  · rw [all_candle_requests]
    rw [candle_first_request g limit today fuel _ (by simp [candleResume])
      (by simp [candleResume]; omega) (by simp [candleResume]) hfuel]
    simp [candleResume]

/-- C2 (amended, witness): concrete run with store `[3]`, fallback 7, one unit
of fuel, exhausted upstream. -/
theorem C2_amended_witness :
    (all_trade_to_csv (fun _ => []) 1000 (some [3]) 0 1).requests.head? = some 4
    ∧ (all_trade_to_csv (fun _ => []) 1000 none 0 1).requests.head? = some 0
    ∧ (all_trade_to_csv (fun _ => []) 1000 (some [3]) 7 1).requests.head? = some 8
    ∧ (all_trade_to_csv (fun _ => []) 1000 none 7 1).requests.head? = some 8
    ∧ (all_candle_to_csv (fun _ => []) 1000 1 (some [3]) 7 1).requests.head? = some 4
    ∧ (all_candle_to_csv (fun _ => []) 1000 1 none 7 1).requests.head? = some 8 := by
  exact C2_amended (fun _ => []) (fun _ => []) 1000 1 1 [3] 7 (by decide) (by decide)
    (by decide) (by decide) (by decide)

/-- Trade loop runs compose across fuel while the loop is still alive. -/
theorem tradeLoop_compose (f : UpOracle) (limit : Nat) :
    ∀ (n k : Nat) (s s1 : TradeState), tradeLoop f limit n s = (s1, false) →
      tradeLoop f limit (n + k) s = tradeLoop f limit k s1 := by
  intro n
  induction n with
  | zero =>
      intro k s s1 h
      have hs : s = s1 := congrArg Prod.fst h
      rw [Nat.zero_add, hs]
  | succ n ih =>
      intro k s s1 h
      cases hstep : tradeStep f limit s with
      | inr s2 =>
          rw [tradeLoop_step_inr f limit hstep n] at h
          exact absurd (congrArg Prod.snd h) (by simp)
      | inl s2 =>
          rw [tradeLoop_step_inl f limit hstep n] at h
          rw [show n + 1 + k = (n + k) + 1 from by omega,
              tradeLoop_step_inl f limit hstep (n + k)]
          exact ih k s2 s1 h

/-- Candle loop runs compose across fuel while the loop is still alive. -/
theorem candleLoop_compose (f : UpOracle) (limit today : Nat) :
    ∀ (n k : Nat) (s s1 : CandleState), candleLoop f limit today n s = (s1, false) →
      candleLoop f limit today (n + k) s = candleLoop f limit today k s1 := by
  intro n
  induction n with
  | zero =>
      intro k s s1 h
      have hs : s = s1 := congrArg Prod.fst h
      rw [Nat.zero_add, hs]
  | succ n ih =>
      intro k s s1 h
      cases hstep : candleStep f limit today s with
      | inr s2 =>
          rw [candleLoop_step_inr f limit today hstep n] at h
          exact absurd (congrArg Prod.snd h) (by simp)
      | inl s2 =>
          rw [candleLoop_step_inl f limit today hstep n] at h
          rw [show n + 1 + k = (n + k) + 1 from by omega,
              candleLoop_step_inl f limit today hstep (n + k)]
          exact ih k s2 s1 h

/-- A trade iteration that passes the guards on a non-empty page continues with
the previous cursor remembered and the cursor moved to the page maximum. -/
theorem tradeStep_inl_fields (f : UpOracle) (limit : Nat) (s : TradeState)
    (h1 : ¬s.previousId = s.lastId)
    (h2 : ¬(s.previousId ≥ s.lastId ∧ s.previousId > 0))
    (hp : ¬f s.fromId = []) :
    ∃ t, tradeStep f limit s = Sum.inl t ∧ t.previousId = s.lastId
      ∧ t.lastId = (maxKey (f s.fromId) : Int) := by
  simp only [tradeStep, if_neg h1, if_neg h2, if_neg hp]
  split
  · exact ⟨_, rfl, rfl, rfl⟩
  · exact ⟨_, rfl, rfl, rfl⟩

/-- From any state, a fetch that returns an empty page or a page whose maximum
id does not exceed the current cursor makes the trade loop exit within two
iterations. -/
theorem trade_done_of_stale (f : UpOracle) (limit : Nat) (s : TradeState)
    (h : f s.fromId = [] ∨ (maxKey (f s.fromId) : Int) ≤ s.lastId) :
    (tradeLoop f limit 2 s).2 = true := by
  by_cases h1 : s.previousId = s.lastId
  · have hstep : tradeStep f limit s = Sum.inr s := by
      simp only [tradeStep, if_pos h1]
    rw [show (2 : Nat) = 1 + 1 from rfl, tradeLoop_step_inr f limit hstep 1]
  · by_cases h2 : s.previousId ≥ s.lastId ∧ s.previousId > 0
    · have hstep : tradeStep f limit s = Sum.inr s := by
        simp only [tradeStep, if_neg h1, if_pos h2]
      rw [show (2 : Nat) = 1 + 1 from rfl, tradeLoop_step_inr f limit hstep 1]
    · by_cases hp : f s.fromId = []
      · have hstep : tradeStep f limit s
            = Sum.inr { s with previousId := s.lastId,
                               requests := s.requests ++ [s.fromId] } := by
          simp only [tradeStep, if_neg h1, if_neg h2, if_pos hp]
        rw [show (2 : Nat) = 1 + 1 from rfl, tradeLoop_step_inr f limit hstep 1]
      · have hm : (maxKey (f s.fromId) : Int) ≤ s.lastId := h.resolve_left hp
        obtain ⟨t, hstep, hprev, hlast⟩ := tradeStep_inl_fields f limit s h1 h2 hp
        rw [show (2 : Nat) = 1 + 1 from rfl, tradeLoop_step_inl f limit hstep 1]
        by_cases hq : t.previousId = t.lastId
        · have hstep2 : tradeStep f limit t = Sum.inr t := by
            simp only [tradeStep, if_pos hq]
          rw [show (1 : Nat) = 0 + 1 from rfl, tradeLoop_step_inr f limit hstep2 0]
        · have hge : t.previousId ≥ t.lastId ∧ t.previousId > 0 := by
            rw [hprev, hlast]
            rw [hprev, hlast] at hq
            have hnn : (0 : Int) ≤ (maxKey (f s.fromId) : Int) := Int.natCast_nonneg _
            omega
          have hstep2 : tradeStep f limit t = Sum.inr t := by
            simp only [tradeStep, if_neg hq, if_pos hge]
          rw [show (1 : Nat) = 0 + 1 from rfl, tradeLoop_step_inr f limit hstep2 0]

/-- From any state, a fetch that returns an empty page or a page whose maximum
open time equals the current cursor makes the candle loop exit in one
iteration. -/
theorem candle_done_of_stale (g : UpOracle) (limit today : Nat) (s : CandleState)
    (h : g (s.lastTs + 1) = [] ∨ maxKey (g (s.lastTs + 1)) = s.lastTs) :
    (candleLoop g limit today 1 s).2 = true := by
  by_cases h1 : s.previousTs = some s.lastTs
  · have hstep : candleStep g limit today s = Sum.inr s := by
      simp only [candleStep, if_pos h1]
    rw [show (1 : Nat) = 0 + 1 from rfl, candleLoop_step_inr g limit today hstep 0]
  · by_cases h2 : dateOf s.lastTs ≥ today
    · have hstep : candleStep g limit today s = Sum.inr s := by
        simp only [candleStep, if_neg h1, if_pos h2]
      rw [show (1 : Nat) = 0 + 1 from rfl, candleLoop_step_inr g limit today hstep 0]
    · by_cases hp : g (s.lastTs + 1) = []
      · have hstep : candleStep g limit today s
            = Sum.inr { s with previousTs := some s.lastTs,
                               startTimeP := s.lastTs + 1,
                               requests := s.requests ++ [s.lastTs + 1] } := by
          simp only [candleStep, if_neg h1, if_neg h2, if_pos hp]
        rw [show (1 : Nat) = 0 + 1 from rfl, candleLoop_step_inr g limit today hstep 0]
      · have hm : maxKey (g (s.lastTs + 1)) = s.lastTs := h.resolve_left hp
        have hstep : candleStep g limit today s
            = Sum.inr { s with previousTs := some s.lastTs,
                               startTimeP := s.lastTs + 1,
                               requests := s.requests ++ [s.lastTs + 1],
                               lastTs := maxKey (g (s.lastTs + 1)) } := by
          simp only [candleStep, if_neg h1, if_neg h2, if_neg hp, if_pos hm.symm]
        rw [show (1 : Nat) = 0 + 1 from rfl, candleLoop_step_inr g limit today hstep 0]

/-- C3 (amended): if at some reachable point of the run the fetch returns an
empty page or a page whose maximum cursor key does not exceed the current
cursor (for trades) or equals the current cursor (for candles), the pagination
loop terminates within finitely many further iterations (two for trades, one
for candles).  A candle page whose maximum is strictly below the cursor does
not terminate the loop. -/
theorem C3_amended (f g : UpOracle) (limit today n m : Nat)
    (s0t st : TradeState) (s0c sc : CandleState)
    (ht : tradeLoop f limit n s0t = (st, false))
    (hstalet : f st.fromId = [] ∨ (maxKey (f st.fromId) : Int) ≤ st.lastId)
    (hc : candleLoop g limit today m s0c = (sc, false))
    (hstalec : g (sc.lastTs + 1) = [] ∨ maxKey (g (sc.lastTs + 1)) = sc.lastTs) :
    (tradeLoop f limit (n + 2) s0t).2 = true
    ∧ (candleLoop g limit today (m + 1) s0c).2 = true := by
  constructor
  · rw [tradeLoop_compose f limit n 2 s0t st ht]
    exact trade_done_of_stale f limit st hstalet
  · rw [candleLoop_compose g limit today m 1 s0c sc hc]
    exact candle_done_of_stale g limit today sc hstalec

/-- C3 (amended, witness): both loops at fuel 0 with an exhausted upstream
terminate within the stated bounds. -/
theorem C3_amended_witness :
    (tradeLoop (fun _ => []) 1000 2 (tradeResume none 0)).2 = true
    ∧ (candleLoop (fun _ => []) 1000 1 1 (candleResume none 0)).2 = true := by
  exact C3_amended (fun _ => []) (fun _ => []) 1000 1 0 0
    (tradeResume none 0) (tradeResume none 0) (candleResume none 0) (candleResume none 0)
    rfl (Or.inl rfl) rfl (Or.inl rfl)

/-- A candle iteration at cursor 10 against the cycling upstream regresses the
cursor to 5 and continues. -/
theorem cycle_step10 (s : CandleState) (h10 : s.lastTs = 10)
    (hp : ¬s.previousTs = some 10) :
    ∃ s1, candleStep cycleOracle 1000 1 s = Sum.inl s1
      ∧ s1.lastTs = 5 ∧ s1.previousTs = some 10 := by
  simp only [candleStep, h10]
  rw [if_neg hp, if_neg (show ¬dateOf 10 ≥ 1 by decide)]
  rw [show cycleOracle (10 + 1) = [5] from rfl]
  rw [if_neg (show ¬([5] : Page) = [] by decide)]
  rw [if_neg (show ¬(10 : Nat) = maxKey [5] by decide)]
  split
  · exact ⟨_, rfl, rfl, rfl⟩
  · exact ⟨_, rfl, rfl, rfl⟩

/-- A candle iteration at cursor 5 against the cycling upstream progresses the
cursor back to 10 and continues. -/
theorem cycle_step5 (s : CandleState) (h5 : s.lastTs = 5)
    (hp : ¬s.previousTs = some 5) :
    ∃ s1, candleStep cycleOracle 1000 1 s = Sum.inl s1
      ∧ s1.lastTs = 10 ∧ s1.previousTs = some 5 := by
  simp only [candleStep, h5]
  rw [if_neg hp, if_neg (show ¬dateOf 5 ≥ 1 by decide)]
  rw [show cycleOracle (5 + 1) = [10] from rfl]
  rw [if_neg (show ¬([10] : Page) = [] by decide)]
  rw [if_neg (show ¬(5 : Nat) = maxKey [10] by decide)]
  split
  · exact ⟨_, rfl, rfl, rfl⟩
  · exact ⟨_, rfl, rfl, rfl⟩

/-- Against the cycling upstream the candle loop never reaches its exit from
any state satisfying the alternation invariant, for any amount of fuel. -/
theorem cycle_no_done :
    ∀ (fuel : Nat) (s : CandleState), cycleInv s →
      (candleLoop cycleOracle 1000 1 fuel s).2 = false := by
  intro fuel
  induction fuel with
  | zero => intro s _; rfl
  | succ n ih =>
      intro s h
      rcases h with ⟨h10, hp⟩ | ⟨h5, hp⟩
      · obtain ⟨s1, hstep, hl, hpr⟩ := cycle_step10 s h10 hp
        rw [candleLoop_step_inl cycleOracle 1000 1 hstep n]
        refine ih s1 (Or.inr ⟨hl, ?_⟩)
        rw [hpr]
        decide
      · obtain ⟨s1, hstep, hl, hpr⟩ := cycle_step5 s h5 hp
        rw [candleLoop_step_inl cycleOracle 1000 1 hstep n]
        refine ih s1 (Or.inl ⟨hl, ?_⟩)
        rw [hpr]
        decide

/-- C3 (counterexample): against `cycleOracle` the very first fetch returns a
non-empty page whose maximum cursor key does not exceed the current cursor
(5 vs 10), yet the candle pagination loop never terminates: the page is
appended, the cursor regresses to 5, the next fetch progresses back to 10, and
the loop alternates forever. -/
theorem C3_counterexample :
    cycleOracle (cycleStart.lastTs + 1) ≠ []
    ∧ maxKey (cycleOracle (cycleStart.lastTs + 1)) ≤ cycleStart.lastTs
    ∧ ¬candleTerminates cycleOracle 1000 1 cycleStart := by
  refine ⟨by decide, by decide, ?_⟩
  rintro ⟨fuel, h⟩
  rw [cycle_no_done fuel cycleStart (Or.inl ⟨rfl, by decide⟩)] at h
  exact Bool.false_ne_true h

/-- C4 (amended): in an iteration that passes the loop guards and fetches a
non-empty page, appending the page triggers a flush exactly when the new
accumulator list length (which includes the initial placeholder element) times
the page limit reaches 5000; the flush writes the merged accumulator to the
store, empties the accumulator and counts one flush, and otherwise the page is
only appended; the same trigger governs the candle driver. -/
theorem C4_amended (f g : UpOracle) (limitT limitC today : Nat)
    (s : TradeState) (sc : CandleState)
    (h1 : ¬s.previousId = s.lastId)
    (h2 : ¬(s.previousId ≥ s.lastId ∧ s.previousId > 0))
    (hp : ¬f s.fromId = [])
    (hc1 : ¬sc.previousTs = some sc.lastTs)
    (hc2 : dateOf sc.lastTs < today)
    (hcp : ¬g (sc.lastTs + 1) = [])
    (hcm : ¬maxKey (g (sc.lastTs + 1)) = sc.lastTs) :
    ((s.batches.length + 1) * limitT ≥ 5000 →
      ∃ t, tradeStep f limitT s = Sum.inl t ∧ t.batches = []
        ∧ t.midFlushes = s.midFlushes + 1
        ∧ t.disk = append_to_csv (prepare_df (s.batches ++ [f s.fromId])) s.disk)
    ∧ ((s.batches.length + 1) * limitT < 5000 →
      ∃ t, tradeStep f limitT s = Sum.inl t ∧ t.batches = s.batches ++ [f s.fromId]
        ∧ t.midFlushes = s.midFlushes ∧ t.disk = s.disk)
    ∧ ((sc.batches.length + 1) * limitC ≥ 5000 →
      ∃ t, candleStep g limitC today sc = Sum.inl t ∧ t.batches = []
        ∧ t.midFlushes = sc.midFlushes + 1)
    ∧ ((sc.batches.length + 1) * limitC < 5000 →
      ∃ t, candleStep g limitC today sc = Sum.inl t
        ∧ t.batches = sc.batches ++ [g (sc.lastTs + 1)]
        ∧ t.midFlushes = sc.midFlushes) := by
  have hc2n : ¬dateOf sc.lastTs ≥ today := by omega
  have hcmn : ¬sc.lastTs = maxKey (g (sc.lastTs + 1)) := fun he => hcm he.symm
  refine ⟨?_, ?_, ?_, ?_⟩
  · intro htrig
    simp only [tradeStep, if_neg h1, if_neg h2, if_neg hp]
    split
    · exact ⟨_, rfl, rfl, rfl, rfl⟩
    · rename_i hcond
      exfalso
      apply hcond
      simp only [List.length_append, List.length_cons, List.length_nil, Nat.zero_add]
      exact htrig
  · intro htrig
    simp only [tradeStep, if_neg h1, if_neg h2, if_neg hp]
    split
    · rename_i hcond
      exfalso
      simp only [List.length_append, List.length_cons, List.length_nil,
        Nat.zero_add] at hcond
      exact absurd hcond (not_le.mpr htrig)
    · exact ⟨_, rfl, rfl, rfl, rfl⟩
  · intro htrig
    simp only [candleStep, if_neg hc1, if_neg hc2n, if_neg hcp, if_neg hcmn]
    split
    · exact ⟨_, rfl, rfl, rfl⟩
    · rename_i hcond
      exfalso
      apply hcond
      simp only [List.length_append, List.length_cons, List.length_nil, Nat.zero_add]
      exact htrig
  · intro htrig
    simp only [candleStep, if_neg hc1, if_neg hc2n, if_neg hcp, if_neg hcmn]
    split
    · rename_i hcond
      exfalso
      simp only [List.length_append, List.length_cons, List.length_nil,
        Nat.zero_add] at hcond
      exact absurd hcond (not_le.mpr htrig)
    · exact ⟨_, rfl, rfl, rfl⟩

/-- C4 (amended, witness): at limit 2500 the very first appended page flushes
in both drivers, because the placeholder plus one page already reach the
trigger. -/
theorem C4_amended_witness :
    (((tradeResume none 0).batches.length + 1) * 2500 ≥ 5000 →
      ∃ t, tradeStep (fun _ => [7]) 2500 (tradeResume none 0) = Sum.inl t
        ∧ t.batches = []
        ∧ t.midFlushes = (tradeResume none 0).midFlushes + 1
        ∧ t.disk = append_to_csv
            (prepare_df ((tradeResume none 0).batches ++ [(fun _ => ([7] : Page)) (tradeResume none 0).fromId]))
            (tradeResume none 0).disk)
    ∧ (((tradeResume none 0).batches.length + 1) * 2500 < 5000 →
      ∃ t, tradeStep (fun _ => [7]) 2500 (tradeResume none 0) = Sum.inl t
        ∧ t.batches = (tradeResume none 0).batches
            ++ [(fun _ => ([7] : Page)) (tradeResume none 0).fromId]
        ∧ t.midFlushes = (tradeResume none 0).midFlushes
        ∧ t.disk = (tradeResume none 0).disk)
    ∧ (((candleResume none 0).batches.length + 1) * 2500 ≥ 5000 →
      ∃ t, candleStep (fun _ => [7]) 2500 1 (candleResume none 0) = Sum.inl t
        ∧ t.batches = []
        ∧ t.midFlushes = (candleResume none 0).midFlushes + 1)
    ∧ (((candleResume none 0).batches.length + 1) * 2500 < 5000 →
      ∃ t, candleStep (fun _ => [7]) 2500 1 (candleResume none 0) = Sum.inl t
        ∧ t.batches = (candleResume none 0).batches
            ++ [(fun _ => ([7] : Page)) ((candleResume none 0).lastTs + 1)]
        ∧ t.midFlushes = (candleResume none 0).midFlushes) := by
  exact C4_amended (fun _ => [7]) (fun _ => [7]) 2500 2500 1
    (tradeResume none 0) (candleResume none 0)
    (by decide) (by decide) (by decide) (by decide) (by decide) (by decide) (by decide)

/-- C6: a response with any non-200 status makes `get_batch` return the empty
page at once (one attempt, no cooldown), and a candle iteration whose fetch
comes back empty exits the loop right after logging the request, ending the
stream for the instrument without any error value. -/
theorem C6_non200_exhausts (net : Nat → NetOutcome) (status : Nat) (rows : Page)
    (i fuel limit today : Nat) (g : UpOracle) (s : CandleState)
    (hnet : net i = NetOutcome.ok status rows) (hs : status ≠ 200)
    (h1 : ¬s.previousTs = some s.lastTs) (h2 : dateOf s.lastTs < today)
    (hg : g (s.lastTs + 1) = []) :
    get_batch net (fuel + 1) i = some ⟨[], 0, 1⟩
    ∧ candleLoop g limit today 1 s
        = ({ s with previousTs := some s.lastTs, startTimeP := s.lastTs + 1,
                    requests := s.requests ++ [s.lastTs + 1] }, true) := by
  constructor
  · simp only [get_batch, hnet]
    rw [if_neg hs]
  · have hstep : candleStep g limit today s
        = Sum.inr { s with previousTs := some s.lastTs, startTimeP := s.lastTs + 1,
                           requests := s.requests ++ [s.lastTs + 1] } := by
      simp only [candleStep, if_neg h1, if_neg (show ¬dateOf s.lastTs ≥ today by omega),
        if_pos hg]
    rw [show (1 : Nat) = 0 + 1 from rfl, candleLoop_step_inr g limit today hstep 0]

/-- C6 (witness): a 404 response and an exhausted candle state. -/
theorem C6_non200_exhausts_witness :
    get_batch (fun _ => NetOutcome.ok 404 [1]) (3 + 1) 0 = some ⟨[], 0, 1⟩
    ∧ candleLoop (fun _ => []) 1000 1 1 (candleResume none 0)
        = ({ candleResume none 0 with
                previousTs := some (candleResume none 0).lastTs,
                startTimeP := (candleResume none 0).lastTs + 1,
                requests := (candleResume none 0).requests
                  ++ [(candleResume none 0).lastTs + 1] }, true) := by
  exact C6_non200_exhausts (fun _ => NetOutcome.ok 404 [1]) 404 [1] 0 3 1000 1
    (fun _ => []) (candleResume none 0) rfl (by decide) (by decide) (by decide) rfl

/-- After `n` consecutive transient failures starting at attempt `k`, a 200
response at attempt `k + n` makes `get_batch` return its rows with `n`
five-minute cooldowns and `n + 1` attempts, for any surplus fuel. -/
theorem get_batch_after_failures (net : Nat → NetOutcome) (rows : Page) :
    ∀ (n k extra : Nat),
      (∀ j, j < n → net (k + j) = NetOutcome.connErr ∨ net (k + j) = NetOutcome.timeoutErr
        ∨ net (k + j) = NetOutcome.resetErr) →
      net (k + n) = NetOutcome.ok 200 rows →
      get_batch net (n + 1 + extra) k = some ⟨rows, 300 * n, n + 1⟩ := by
  intro n
  induction n with
  | zero =>
      intro k extra hfail hok
      rw [Nat.add_zero] at hok
      rw [show 0 + 1 + extra = extra + 1 from by omega]
      simp only [get_batch, hok]
      simp
  | succ n ih =>
      intro k extra hfail hok
      have hrec : get_batch net (n + 1 + extra) (k + 1) = some ⟨rows, 300 * n, n + 1⟩ := by
        apply ih (k + 1) extra
        · intro j hj
          have hx := hfail (j + 1) (by omega)
          rwa [show k + (j + 1) = k + 1 + j from by omega] at hx
        · rwa [show k + (n + 1) = k + 1 + n from by omega] at hok
      have h0 := hfail 0 (by omega)
      rw [Nat.add_zero] at h0
      rw [show n + 1 + 1 + extra = (n + 1 + extra) + 1 from by omega]
      rcases h0 with h0 | h0 | h0 <;>
        simp only [get_batch, h0, hrec] <;>
        rw [show (300 : Nat) * n + 300 = 300 * (n + 1) from by omega]

/-- C7: for every run of consecutive transient network failures (connection
error, timeout, or reset) followed by a 200 response, `get_batch` sleeps a
fixed 300 seconds per failure, retries until the response arrives, and returns
its rows; no failure value is ever produced, regardless of extra fuel. -/
theorem C7_transient_retry (net : Nat → NetOutcome) (rows : Page) (n extra : Nat)
    (hfail : ∀ j, j < n → net j = NetOutcome.connErr ∨ net j = NetOutcome.timeoutErr
      ∨ net j = NetOutcome.resetErr)
    (hok : net n = NetOutcome.ok 200 rows) :
    get_batch net (n + 1 + extra) 0 = some ⟨rows, 300 * n, n + 1⟩ := by
  apply get_batch_after_failures net rows n 0 extra
  · intro j hj
    simpa using hfail j hj
  · simpa using hok

/-- C7 (witness): one connection failure then success returns the page after a
single 300-second cooldown in two attempts. -/
theorem C7_transient_retry_witness :
    get_batch (fun i => if i = 0 then NetOutcome.connErr else NetOutcome.ok 200 [3])
      (1 + 1 + 2) 0 = some ⟨[3], 300 * 1, 1 + 1⟩ := by
  exact C7_transient_retry
    (fun i => if i = 0 then NetOutcome.connErr else NetOutcome.ok 200 [3]) [3] 1 2
    (by decide) (by decide)

/-- C9: any `--dtype` value other than `candle` or `trade` is accepted by the
argument parser, and the orchestrator then fails on the first instrument with
an unbound-local failure at the `new_lines > 0` check, because neither branch
assigned `new_lines`. -/
theorem C9_bad_dtype (d : String) (h1 : d ≠ "candle") (h2 : d ≠ "trade")
    (driver : String × String → Int) (p : String × String)
    (rest : List (String × String)) :
    parse_dtype d = some d
    ∧ mainRun d driver (p :: rest) = Except.error (PyErr.unboundLocal "new_lines") := by
  refine ⟨rfl, ?_⟩
  have hstep : mainPairStep d (driver p) = Except.error (PyErr.unboundLocal "new_lines") := by
    simp only [mainPairStep, if_neg h1, if_neg h2]
    rfl
  simp only [mainRun, hstep]

/-- C9 (witness): dtype `klines` is accepted and crashes on the first pair. -/
theorem C9_bad_dtype_witness :
    parse_dtype "klines" = some "klines"
    ∧ mainRun "klines" (fun _ => 0) [("BTC", "USDT")]
        = Except.error (PyErr.unboundLocal "new_lines") := by
  exact C9_bad_dtype "klines" (by decide) (by decide) (fun _ => 0) ("BTC", "USDT") []

/-- Setting a key finds it again. -/
theorem dictGet_dictSet_same (d : PDict) (k : String) (v : PVal) :
    dictGet (dictSet d k v) k = some v := by
  induction d with
  | nil => simp [dictSet, dictGet]
  | cons kv t ih =>
      obtain ⟨k1, v1⟩ := kv
      by_cases h : k1 = k
      · simp [dictSet, dictGet, h]
      · simp [dictSet, dictGet, h, ih]

/-- Setting one key leaves lookups of a different key unchanged. -/
theorem dictGet_dictSet_other (d : PDict) (k1 k2 : String) (v : PVal) (h : k1 ≠ k2) :
    dictGet (dictSet d k1 v) k2 = dictGet d k2 := by
  induction d with
  | nil => simp [dictSet, dictGet, h]
  | cons kv t ih =>
      obtain ⟨ka, va⟩ := kv
      simp only [dictSet]
      by_cases h2 : ka = k1
      · rw [if_pos h2]
        simp only [dictGet]
        rw [if_neg h, if_neg (h2 ▸ h)]
      · rw [if_neg h2]
        simp only [dictGet]
        by_cases h3 : ka = k2
        · rw [if_pos h3, if_pos h3]
        · rw [if_neg h3, if_neg h3]
          exact ih

/-- C10: when both an API key and secret are configured, the signing step of
`get_batch` stores into the caller-supplied params dict a `signiature` entry
holding the SHA-256 hash object of the secret and a `timestamp` entry holding
the fetched server time, sends the key as the header, and both entries survive
the cursor updates (`fromId` or `startTime`) that build every subsequent
request from the same dict. -/
theorem C10_params_mutation (k sec : String) (st : Nat) (p : PDict) (v : PVal) :
    dictGet (signParams (some k) (some sec) st p).1 "signiature"
      = some (PVal.hashObj sec)
    ∧ dictGet (signParams (some k) (some sec) st p).1 "timestamp" = some (PVal.nat st)
    ∧ dictGet (dictSet (signParams (some k) (some sec) st p).1 "fromId" v) "signiature"
        = some (PVal.hashObj sec)
    ∧ dictGet (dictSet (signParams (some k) (some sec) st p).1 "startTime" v) "signiature"
        = some (PVal.hashObj sec)
    ∧ (signParams (some k) (some sec) st p).2 = some k := by
  have hsig : dictGet (signParams (some k) (some sec) st p).1 "signiature"
      = some (PVal.hashObj sec) := by
    show dictGet (dictSet (dictSet p "signiature" (PVal.hashObj sec)) "timestamp"
      (PVal.nat st)) "signiature" = some (PVal.hashObj sec)
    rw [dictGet_dictSet_other _ _ _ _ (by decide)]
    exact dictGet_dictSet_same _ _ _
  refine ⟨hsig, ?_, ?_, ?_, rfl⟩
  · exact dictGet_dictSet_same _ _ _
  · rw [dictGet_dictSet_other _ _ _ _ (by decide)]
    exact hsig
  · rw [dictGet_dictSet_other _ _ _ _ (by decide)]
    exact hsig
